import Mathlib

/-!
Verification of `slycot/exceptions.py` (`raise_if_slycot_error` and the
SlycotError exception family) against its natural-language specification.

The Python source is shallowly embedded over `List Char` text:
- Python strings become `Str := List Char`; `str.splitlines`, `str.strip`,
  slicing and `str.isspace` become the structural functions below.
- The `eval` of a guard predicate is embedded by a tokenizer, a
  recursive-descent reader and an evaluator for boolean expressions over
  the binding set: names, attribute access (`e.info`), integer and float
  literals, unary minus, the arithmetic operators `+ - * / // %`, the six
  comparison operators with Python chaining, and `and` / `or` / `not`.
  Name resolution follows `eval(infospec_, checkvars)`: the globals dict
  first, then the `__builtins__` namespace CPython inserts into it, so a
  builtin name absent from `checkvars` resolves (to an opaque builtin
  object value) instead of raising `NameError`.  A Python `SyntaxError`
  is `.synErr`, a `NameError` is `.nameErr`; any other exception escaping
  `eval` (Python would leave it uncaught) is `.crash`.  Expression forms
  outside this grammar (calls, subscripts, string literals, `**`,
  lambdas, conditional expressions) are read as syntax errors, and
  attribute access on a builtin is an uncaught error; `eval` also writes
  the `__builtins__` key itself into the caller's dict, which the
  embedding does not model.
- `str.format` is embedded for the replacement fields the documentation
  grammar uses: `\x7bname\x7d`, `\x7bname.attr\x7d` and format specs of
  shape `[width][.precision][g]`, with Python `%g`-style rendering of
  numbers implemented over exact fractions.
- The mutable `checkvars` dict is threaded explicitly: the call returns
  the final dictionary next to its outcome, so mutation is observable.
-/

namespace Slycot

abbrev Str := List Char

/-- Python `str.isspace` on a single character (ASCII whitespace). -/
def isPySpace (c : Char) : Bool :=
  c = ' ' || c = '\t' || c = '\n' || c = '\r' || c = '\x0b' || c = '\x0c'

/-- Python `s.isspace()`: nonempty and all whitespace. -/
def pyIsSpace (s : Str) : Bool :=
  !s.isEmpty && s.all isPySpace

/-- `not l.strip()`: the line is empty or all whitespace. -/
def isBlank (s : Str) : Bool :=
  s.all isPySpace

def dropLeadingWs (s : Str) : Str :=
  s.dropWhile isPySpace

/-- Number of leading whitespace characters (what `(\s*)` captures). -/
def countLeadingWs (s : Str) : Nat :=
  (s.takeWhile isPySpace).length

/-- Python `str.strip()`. -/
def pyStrip (s : Str) : Str :=
  ((s.dropWhile isPySpace).reverse.dropWhile isPySpace).reverse

/-- `pat` is a prefix of `s`. -/
def startsWithCL : Str → Str → Bool
  | [], _ => true
  | _ :: _, [] => false
  | p :: ps, c :: cs => p = c && startsWithCL ps cs

/-- Python `pat in s` (substring containment). -/
def containsCL (pat : Str) : Str → Bool
  | [] => startsWithCL pat []
  | c :: cs => startsWithCL pat (c :: cs) || containsCL pat cs

/-- Position of the first occurrence of `c`, `none` if absent
(Python `str.index` raises `ValueError` on `none`). -/
def firstIdx (c : Char) : Str → Option Nat
  | [] => none
  | d :: ds =>
    if d = c then some 0
    else match firstIdx c ds with
         | some n => some (n + 1)
         | none => none

/-- Split at the last colon: `some (before, after)` with `before ++ ':' :: after`
the whole input and `after` colon-free-tail maximal; `none` if no colon.
This is what the greedy `:(.*):` group of the infospec regex captures. -/
def lastColon : Str → Option (Str × Str)
  | [] => none
  | c :: cs =>
    match lastColon cs with
    | some (p, s) => some (c :: p, s)
    | none => if c = ':' then some ([], cs) else none

/-- A Python `str.splitlines` line boundary character. -/
def isLineBreak (c : Char) : Bool :=
  c = '\n' || c = '\r' || c = '\x0b' || c = '\x0c' ||
  c = '\x1c' || c = '\x1d' || c = '\x1e' || c = '\x85' ||
  c = '\u2028' || c = '\u2029'

/-- Python `str.splitlines` helper: split on the line boundaries,
treating `"\r\n"` as a single boundary. -/
def splitNl : Str → List Str
  | [] => [[]]
  | '\r' :: '\n' :: cs => [] :: splitNl cs
  | c :: cs =>
    if isLineBreak c then [] :: splitNl cs
    else
      match splitNl cs with
      | [] => [[c]]
      | l :: ls => (c :: l) :: ls

/-- Python `str.splitlines`: no empty final line for a trailing newline,
and `[]` for the empty string. -/
def splitlinesPy (s : Str) : List Str :=
  if s = [] then []
  else
    let p := splitNl s
    if p.getLast? = some [] then p.dropLast else p

/-- Replace every non-overlapping occurrence of a single-equals comparison
written as " = " by " == " (source: `infospec.replace(" = ", " == ")`). -/
def rep1 : Str → Str
  | ' ' :: '=' :: ' ' :: rest => ' ' :: '=' :: '=' :: ' ' :: rep1 rest
  | c :: rest => c :: rep1 rest
  | [] => []

def pow10 : Nat → Int
  | 0 => 1
  | n + 1 => 10 * pow10 n

/-- Decimal digits of a natural number (fuelled; fuel bounds digit count). -/
def natDigitsAux : Nat → Nat → Str → Str
  | 0, _, acc => acc
  | _ + 1, 0, acc => acc
  | f + 1, n, acc => natDigitsAux f (n / 10) (Char.ofNat (48 + n % 10) :: acc)

def natDigits (n : Nat) : Str :=
  if n = 0 then ['0'] else natDigitsAux 64 n []

def intStr (i : Int) : Str :=
  if i < 0 then '-' :: natDigits i.natAbs else natDigits i.natAbs

def stripTrailingZeros (s : Str) : Str :=
  (s.reverse.dropWhile (fun c => c = '0')).reverse

/-- Largest `X` with `10 ^ X ≤ num / den` for a positive fraction (fuelled). -/
def decExpAux : Nat → Int → Int → Int
  | 0, _, _ => 0
  | f + 1, num, den =>
    if num < den then decExpAux f (num * 10) den - 1
    else if 10 * den ≤ num then decExpAux f num (10 * den) + 1
    else 0

def padLeft (w : Nat) (s : Str) : Str :=
  List.replicate (w - s.length) ' ' ++ s

def padRight (w : Nat) (s : Str) : Str :=
  s ++ List.replicate (w - s.length) ' '

/-- Python `%.<p>g` formatting of the positive exact fraction `num / den`:
round to `p` significant digits, use fixed notation when the decimal
exponent `X` satisfies `-4 ≤ X < p` (trailing zeros stripped), otherwise
scientific notation with a two-digit exponent. -/
def gfmtPos (p : Nat) (num : Int) (den : Int) : Str :=
  let p0 := max p 1
    let X := decExpAux 4096 num den
    let e10 : Int := (p0 : Int) - 1 - X
    let num1 := if 0 ≤ e10 then num * pow10 e10.toNat else num
    let den1 := if 0 ≤ e10 then den else den * pow10 (-e10).toNat
    let r0 : Int := (2 * num1 + den1) / (2 * den1)
    let overflow := pow10 p0 ≤ r0
    let r := if overflow then r0 / 10 else r0
    let X1 := if overflow then X + 1 else X
    let digits := natDigits r.toNat
    if -4 ≤ X1 ∧ X1 < (p0 : Int) then
      if 0 ≤ X1 then
        let ip := digits.take (X1.toNat + 1)
        let fp := stripTrailingZeros (digits.drop (X1.toNat + 1))
        ip ++ (if fp = [] then [] else '.' :: fp)
      else
        let fp := stripTrailingZeros (List.replicate ((-X1).toNat - 1) '0' ++ digits)
        '0' :: '.' :: fp
    else
      let mant :=
        match digits with
        | [] => []
        | d :: rest =>
          let rest1 := stripTrailingZeros rest
          d :: (if rest1 = [] then [] else '.' :: rest1)
      let mag := natDigits X1.natAbs
      let mag2 := if mag.length < 2 then '0' :: mag else mag
      mant ++ 'e' :: (if X1 < 0 then '-' else '+') :: mag2

/-- Python `%.<p>g` formatting of an exact fraction, any sign. -/
def gfmt (p : Nat) (num : Int) (den : Int) : Str :=
  if num = 0 then ['0']
  else if num < 0 then '-' :: gfmtPos p (-num) den
  else gfmtPos p num den

/-! ## Values and the caller's `checkvars` dictionary -/

/-- Runtime values visible to guard evaluation and message formatting:
Python ints, floats (exact fractions `num / den`), bools, strings, the
transient `SlycotError("", info)` object bound to `e` (source line 158:
`checkvars['e'] = SlycotError("", info)`), and the opaque builtin
objects that `eval`'s name resolution can produce (`len`, `abs`, ...),
identified by their name. -/
inductive Value where
  | intV (i : Int)
  | floatV (num : Int) (den : Int)
  | boolV (b : Bool)
  | strV (s : Str)
  | errV (info : Int)
  | builtinV (name : Str)
  deriving DecidableEq, Repr

/-- The names of the CPython builtins namespace, which
`eval(infospec_, checkvars)` consults after the `checkvars` globals
(keyword constants `True`/`False`/`None` are handled by the reader, not
by name lookup). -/
def builtinNames : List Str :=
  (["abs", "aiter", "all", "anext", "any", "ascii", "bin", "bool",
    "breakpoint", "bytearray", "bytes", "callable", "chr", "classmethod",
    "compile", "complex", "copyright", "credits", "delattr", "dict",
    "dir", "divmod", "enumerate", "eval", "exec", "exit", "filter",
    "float", "format", "frozenset", "getattr", "globals", "hasattr",
    "hash", "help", "hex", "id", "input", "int", "isinstance",
    "issubclass", "iter", "len", "license", "list", "locals", "map",
    "max", "memoryview", "min", "next", "object", "oct", "open", "ord",
    "pow", "print", "property", "quit", "range", "repr", "reversed",
    "round", "set", "setattr", "slice", "sorted", "staticmethod", "str",
    "sum", "super", "tuple", "type", "vars", "zip",
    "Ellipsis", "NotImplemented",
    "ArithmeticError", "AssertionError", "AttributeError",
    "BaseException", "BaseExceptionGroup", "BlockingIOError",
    "BrokenPipeError", "BufferError", "BytesWarning", "ChildProcessError",
    "ConnectionAbortedError", "ConnectionError", "ConnectionRefusedError",
    "ConnectionResetError", "DeprecationWarning", "EOFError",
    "EncodingWarning", "EnvironmentError", "Exception", "ExceptionGroup",
    "FileExistsError", "FileNotFoundError", "FloatingPointError",
    "FutureWarning", "GeneratorExit", "IOError", "ImportError",
    "ImportWarning", "IndentationError", "IndexError", "InterruptedError",
    "IsADirectoryError", "KeyError", "KeyboardInterrupt", "LookupError",
    "MemoryError", "ModuleNotFoundError", "NameError",
    "NotADirectoryError", "NotImplementedError", "OSError",
    "OverflowError", "PendingDeprecationWarning", "PermissionError",
    "ProcessLookupError", "RecursionError", "ReferenceError",
    "ResourceWarning", "RuntimeError", "RuntimeWarning",
    "StopAsyncIteration", "StopIteration", "SyntaxError", "SyntaxWarning",
    "SystemError", "SystemExit", "TabError", "TimeoutError", "TypeError",
    "UnboundLocalError", "UnicodeDecodeError", "UnicodeEncodeError",
    "UnicodeError", "UnicodeTranslateError", "UnicodeWarning",
    "UserWarning", "ValueError", "Warning", "ZeroDivisionError",
    "__build_class__", "__builtins__", "__debug__", "__doc__",
    "__import__", "__loader__", "__name__", "__package__",
    "__spec__"] : List String).map String.data

/-- The `checkvars` dict: insertion-ordered association list with unique
keys, Python-style assignment replacing in place. -/
abbrev Env := List (Str × Value)

def envLookup (env : Env) (k : Str) : Option Value :=
  match env with
  | [] => none
  | (k1, v1) :: rest => if k1 = k then some v1 else envLookup rest k

/-- Python dict assignment `env[k] = v`. -/
def envSet (env : Env) (k : Str) (v : Value) : Env :=
  match env with
  | [] => [(k, v)]
  | (k1, v1) :: rest => if k1 = k then (k, v) :: rest else (k1, v1) :: envSet rest k v

def eKey : Str := ['e']
def iKey : Str := ['i']

/-- Python truthiness of a value. -/
def truthy : Value → Bool
  | .intV i => i ≠ 0
  | .floatV num _ => num ≠ 0
  | .boolV b => b
  | .strV s => !s.isEmpty
  | .errV _ => true
  | .builtinV _ => true

/-! ## The guard-predicate expression language

The infospec strings are evaluated by Python `eval` in the source.  The
documented grammar for them is boolean expressions over the `checkvars`
names and `e.info`; the embedding below tokenizes and reads exactly that
grammar.  A reading failure models `SyntaxError`, an unbound name models
`NameError`; anything else a Python `eval` would raise uncaught (for
example a `TypeError` from ordering incompatible values) is `.crash`. -/

inductive Tok where
  | name (s : Str)
  | num (n : Nat)
  | numF (num : Int) (den : Int)
  | opEq | opNe | opLt | opLe | opGt | opGe
  | lparen | rparen | minus | plus | star | slash | dslash | percent
  | dot | eq1
  deriving DecidableEq, Repr

def isNameStart (c : Char) : Bool := c.isAlpha || c = '_'
def isNameChar (c : Char) : Bool := c.isAlphanum || c = '_'

def digitsToNat (s : Str) : Nat :=
  s.foldl (fun acc c => acc * 10 + (c.toNat - 48)) 0

/-- Tokenizer (fuelled by input length; each step consumes ≥ 1 char). -/
def tokenizeAux : Nat → Str → Except Unit (List Tok)
  | 0, _ => .error ()
  | _ + 1, [] => .ok []
  | f + 1, c :: cs =>
    if isPySpace c then tokenizeAux f cs
    else if isNameStart c then
      let nm := c :: cs.takeWhile isNameChar
      (tokenizeAux f (cs.dropWhile isNameChar)).map (fun ts => .name nm :: ts)
    else if c.isDigit then
      let ds := c :: cs.takeWhile Char.isDigit
      let rest1 := cs.dropWhile Char.isDigit
      match rest1 with
      | '.' :: d :: r3 =>
        if d.isDigit then
          let fs := d :: r3.takeWhile Char.isDigit
          let r4 := r3.dropWhile Char.isDigit
          (tokenizeAux f r4).map
            (fun ts => .numF ((digitsToNat (ds ++ fs) : Nat) : Int) (pow10 fs.length) :: ts)
        else (tokenizeAux f rest1).map (fun ts => .num (digitsToNat ds) :: ts)
      | _ => (tokenizeAux f rest1).map (fun ts => .num (digitsToNat ds) :: ts)
    else
      match c, cs with
      | '=', '=' :: cs2 => (tokenizeAux f cs2).map (fun ts => .opEq :: ts)
      | '!', '=' :: cs2 => (tokenizeAux f cs2).map (fun ts => .opNe :: ts)
      | '<', '=' :: cs2 => (tokenizeAux f cs2).map (fun ts => .opLe :: ts)
      | '>', '=' :: cs2 => (tokenizeAux f cs2).map (fun ts => .opGe :: ts)
      | '=', _ => (tokenizeAux f cs).map (fun ts => .eq1 :: ts)
      | '<', _ => (tokenizeAux f cs).map (fun ts => .opLt :: ts)
      | '>', _ => (tokenizeAux f cs).map (fun ts => .opGt :: ts)
      | '(', _ => (tokenizeAux f cs).map (fun ts => .lparen :: ts)
      | ')', _ => (tokenizeAux f cs).map (fun ts => .rparen :: ts)
      | '-', _ => (tokenizeAux f cs).map (fun ts => .minus :: ts)
      | '+', _ => (tokenizeAux f cs).map (fun ts => .plus :: ts)
      | '*', _ => (tokenizeAux f cs).map (fun ts => .star :: ts)
      | '/', '/' :: cs2 => (tokenizeAux f cs2).map (fun ts => .dslash :: ts)
      | '/', _ => (tokenizeAux f cs).map (fun ts => .slash :: ts)
      | '%', _ => (tokenizeAux f cs).map (fun ts => .percent :: ts)
      | '.', _ => (tokenizeAux f cs).map (fun ts => .dot :: ts)
      | _, _ => .error ()

def tokenize (s : Str) : Except Unit (List Tok) :=
  tokenizeAux (s.length + 1) s

inductive CmpOp where
  | eq | ne | lt | le | gt | ge
  deriving DecidableEq, Repr

inductive ArithOp where
  | add | sub | mul | div | floordiv | mod
  deriving DecidableEq, Repr

/-- Expression tree of a guard predicate.  Python's chained comparison
`a < b < c` is read as `(a < b) and (b < c)`, which has the same value,
short-circuiting and error behaviour for these pure operand forms. -/
inductive Expr where
  | lit (i : Int)
  | flit (num : Int) (den : Int)
  | evar (x : Str)
  | attr (x : Str) (a : Str)
  | neg (e : Expr)
  | enot (e : Expr)
  | arith (op : ArithOp) (a b : Expr)
  | cmp (op : CmpOp) (a b : Expr)
  | eand (a b : Expr)
  | eor (a b : Expr)
  deriving DecidableEq, Repr

def tokCmpOp : Tok → Option CmpOp
  | .opEq => some .eq
  | .opNe => some .ne
  | .opLt => some .lt
  | .opLe => some .le
  | .opGt => some .gt
  | .opGe => some .ge
  | _ => none

def tokMulOp : Tok → Option ArithOp
  | .star => some .mul
  | .slash => some .div
  | .dslash => some .floordiv
  | .percent => some .mod
  | _ => none

def tokAddOp : Tok → Option ArithOp
  | .plus => some .add
  | .minus => some .sub
  | _ => none

mutual

def parseAtom : Nat → List Tok → Except Unit (Expr × List Tok)
  | 0, _ => .error ()
  | f + 1, ts =>
    match ts with
    | .name x :: .dot :: .name a :: rest => .ok (.attr x a, rest)
    | .name x :: rest =>
      if x = "True".data then .ok (.lit 1, rest)
      else if x = "False".data then .ok (.lit 0, rest)
      else if x = "and".data || x = "or".data || x = "not".data then .error ()
      else .ok (.evar x, rest)
    | .num n :: rest => .ok (.lit (n : Int), rest)
    | .numF n d :: rest => .ok (.flit n d, rest)
    | .lparen :: rest =>
      match parseOr f rest with
      | .ok (e, .rparen :: rest2) => .ok (e, rest2)
      | _ => .error ()
    | _ => .error ()

def parseUnary : Nat → List Tok → Except Unit (Expr × List Tok)
  | 0, _ => .error ()
  | f + 1, .minus :: rest => (parseUnary f rest).map (fun r => (.neg r.1, r.2))
  | f + 1, ts => parseAtom f ts

def parseMulRest : Nat → Expr → List Tok → Except Unit (Expr × List Tok)
  | 0, _, _ => .error ()
  | f + 1, acc, ts =>
    match ts with
    | t :: rest =>
      match tokMulOp t with
      | some op =>
        match parseUnary f rest with
        | .ok (b, rest2) => parseMulRest f (.arith op acc b) rest2
        | .error _ => .error ()
      | none => .ok (acc, ts)
    | [] => .ok (acc, ts)

def parseMul : Nat → List Tok → Except Unit (Expr × List Tok)
  | 0, _ => .error ()
  | f + 1, ts =>
    match parseUnary f ts with
    | .ok (a, rest) => parseMulRest f a rest
    | .error _ => .error ()

def parseAddRest : Nat → Expr → List Tok → Except Unit (Expr × List Tok)
  | 0, _, _ => .error ()
  | f + 1, acc, ts =>
    match ts with
    | t :: rest =>
      match tokAddOp t with
      | some op =>
        match parseMul f rest with
        | .ok (b, rest2) => parseAddRest f (.arith op acc b) rest2
        | .error _ => .error ()
      | none => .ok (acc, ts)
    | [] => .ok (acc, ts)

def parseAdd : Nat → List Tok → Except Unit (Expr × List Tok)
  | 0, _ => .error ()
  | f + 1, ts =>
    match parseMul f ts with
    | .ok (a, rest) => parseAddRest f a rest
    | .error _ => .error ()

/-- Chained comparisons, folded into `and`s of pairwise comparisons. -/
def parseCmpRest : Nat → Expr → Expr → List Tok → Except Unit (Expr × List Tok)
  | 0, _, _, _ => .error ()
  | f + 1, acc, lastOperand, ts =>
    match ts with
    | t :: rest =>
      match tokCmpOp t with
      | some op =>
        match parseAdd f rest with
        | .ok (b, rest2) => parseCmpRest f (.eand acc (.cmp op lastOperand b)) b rest2
        | .error _ => .error ()
      | none => .ok (acc, ts)
    | [] => .ok (acc, ts)

def parseCmp : Nat → List Tok → Except Unit (Expr × List Tok)
  | 0, _ => .error ()
  | f + 1, ts =>
    match parseAdd f ts with
    | .ok (a, t :: rest) =>
      match tokCmpOp t with
      | some op =>
        match parseAdd f rest with
        | .ok (b, rest2) => parseCmpRest f (.cmp op a b) b rest2
        | .error _ => .error ()
      | none => .ok (a, t :: rest)
    | .ok (a, []) => .ok (a, [])
    | .error _ => .error ()

def parseNot : Nat → List Tok → Except Unit (Expr × List Tok)
  | 0, _ => .error ()
  | f + 1, .name x :: rest =>
    if x = "not".data then (parseNot f rest).map (fun r => (.enot r.1, r.2))
    else parseCmp f (.name x :: rest)
  | f + 1, ts => parseCmp f ts

def parseAndRest : Nat → Expr → List Tok → Except Unit (Expr × List Tok)
  | 0, _, _ => .error ()
  | f + 1, acc, ts =>
    match ts with
    | .name x :: rest =>
      if x = "and".data then
        match parseNot f rest with
        | .ok (b, rest2) => parseAndRest f (.eand acc b) rest2
        | .error _ => .error ()
      else .ok (acc, ts)
    | _ => .ok (acc, ts)

def parseAnd : Nat → List Tok → Except Unit (Expr × List Tok)
  | 0, _ => .error ()
  | f + 1, ts =>
    match parseNot f ts with
    | .ok (a, rest) => parseAndRest f a rest
    | .error _ => .error ()

def parseOrRest : Nat → Expr → List Tok → Except Unit (Expr × List Tok)
  | 0, _, _ => .error ()
  | f + 1, acc, ts =>
    match ts with
    | .name x :: rest =>
      if x = "or".data then
        match parseAnd f rest with
        | .ok (b, rest2) => parseOrRest f (.eor acc b) rest2
        | .error _ => .error ()
      else .ok (acc, ts)
    | _ => .ok (acc, ts)

def parseOr : Nat → List Tok → Except Unit (Expr × List Tok)
  | 0, _ => .error ()
  | f + 1, ts =>
    match parseAnd f ts with
    | .ok (a, rest) => parseOrRest f a rest
    | .error _ => .error ()

end

/-- Read a whole predicate string into an expression (Python `compile`
inside `eval`); `.error` models `SyntaxError`. -/
def parseExpr (s : Str) : Except Unit Expr :=
  match tokenize s with
  | .error _ => .error ()
  | .ok ts =>
    match parseOr (16 * ts.length + 32) ts with
    | .ok (e, []) => .ok e
    | _ => .error ()

inductive EvalErr where
  | nameErr
  | crash
  deriving DecidableEq, Repr

/-- Numeric view of a value (Python int/float/bool cross-comparison). -/
def toFracOpt : Value → Option (Int × Int)
  | .intV i => some (i, 1)
  | .floatV n d => some (n, d)
  | .boolV b => some (if b then 1 else 0, 1)
  | _ => none

def cmpHolds (op : CmpOp) (a b : Int) : Bool :=
  match op with
  | .eq => a = b
  | .ne => a ≠ b
  | .lt => a < b
  | .le => a ≤ b
  | .gt => a > b
  | .ge => a ≥ b

/-- Python equality across values when at least one side is non-numeric:
strings compare by content; the error object and the builtin objects are
compared by identity (there is exactly one `e` object per evaluation and
one object per builtin name, so equal tags mean the same object);
mismatched types are unequal. -/
def pyEq : Value → Value → Bool
  | .strV s, .strV t => s = t
  | .errV a, .errV b => a = b
  | .builtinV a, .builtinV b => a = b
  | _, _ => false

def cmpVals (op : CmpOp) (v w : Value) : Except EvalErr Value :=
  match toFracOpt v, toFracOpt w with
  | some (a, b), some (c, d) => .ok (.boolV (cmpHolds op (a * d) (c * b)))
  | _, _ =>
    match op with
    | .eq => .ok (.boolV (pyEq v w))
    | .ne => .ok (.boolV (!pyEq v w))
    | _ => .error .crash

/-- Python treats bools as ints in arithmetic; floats taint the result. -/
def isIntLike : Value → Bool
  | .intV _ => true
  | .boolV _ => true
  | _ => false

/-- The arithmetic operators `+ - * / // %` on values, with Python
semantics: int (or bool) operands give an int except for true division;
a float operand gives a float; `//` and `%` round toward negative
infinity; `+` concatenates strings; a zero divisor or an unsupported
operand type is an uncaught exception. -/
def arithVals (op : ArithOp) (v w : Value) : Except EvalErr Value :=
  match op, v, w with
  | .add, .strV s, .strV t => .ok (.strV (s ++ t))
  | _, _, _ =>
    match toFracOpt v, toFracOpt w with
    | some (n1, d1), some (n2, d2) =>
      let bothInt := isIntLike v && isIntLike w
      match op with
      | .add =>
        if bothInt then .ok (.intV (n1 + n2))
        else .ok (.floatV (n1 * d2 + n2 * d1) (d1 * d2))
      | .sub =>
        if bothInt then .ok (.intV (n1 - n2))
        else .ok (.floatV (n1 * d2 - n2 * d1) (d1 * d2))
      | .mul =>
        if bothInt then .ok (.intV (n1 * n2))
        else .ok (.floatV (n1 * n2) (d1 * d2))
      | .div =>
        if n2 = 0 then .error .crash
        else
          let nn := n1 * d2
          let dd := d1 * n2
          if dd < 0 then .ok (.floatV (-nn) (-dd)) else .ok (.floatV nn dd)
      | .floordiv =>
        if n2 = 0 then .error .crash
        else
          let q := Int.fdiv (n1 * d2) (d1 * n2)
          if bothInt then .ok (.intV q) else .ok (.floatV q 1)
      | .mod =>
        if n2 = 0 then .error .crash
        else
          let q := Int.fdiv (n1 * d2) (d1 * n2)
          if bothInt then .ok (.intV (n1 - n2 * q))
          else .ok (.floatV (n1 * d2 - n2 * d1 * q) (d1 * d2))
    | _, _ => .error .crash

def evalExpr (env : Env) : Expr → Except EvalErr Value
  | .lit i => .ok (.intV i)
  | .flit n d => .ok (.floatV n d)
  | .evar x =>
    match envLookup env x with
    | some v => .ok v
    | none =>
      if builtinNames.contains x then .ok (.builtinV x) else .error .nameErr
  | .attr x a =>
    match envLookup env x with
    | some (.errV i) => if a = "info".data then .ok (.intV i) else .error .crash
    | some _ => .error .crash
    | none =>
      if builtinNames.contains x then .error .crash else .error .nameErr
  | .neg e => do
    let v ← evalExpr env e
    match v with
    | .intV i => .ok (.intV (-i))
    | .floatV n d => .ok (.floatV (-n) d)
    | .boolV b => .ok (.intV (if b then -1 else 0))
    | _ => .error .crash
  | .enot e => do
    let v ← evalExpr env e
    .ok (.boolV (!truthy v))
  | .arith op a b => do
    let va ← evalExpr env a
    let vb ← evalExpr env b
    arithVals op va vb
  | .cmp op a b => do
    let va ← evalExpr env a
    let vb ← evalExpr env b
    cmpVals op va vb
  | .eand a b => do
    let va ← evalExpr env a
    if truthy va then evalExpr env b else .ok va
  | .eor a b => do
    let va ← evalExpr env a
    if truthy va then .ok va else evalExpr env b

inductive PredErr where
  | synErr
  | nameErr
  | crash
  deriving DecidableEq, Repr

/-- `eval(infospec_, checkvars)` of the source: read the predicate and
evaluate it, resolving names through `checkvars` and then the builtins
namespace, exactly as CPython resolves globals for `eval`. -/
def evalPredStr (s : Str) (env : Env) : Except PredErr Value :=
  match parseExpr s with
  | .error _ => .error .synErr
  | .ok e =>
    match evalExpr env e with
    | .error .nameErr => .error .nameErr
    | .error .crash => .error .crash
    | .ok v => .ok v

/-! ## Message formatting (`message.format(**checkvars)`)

Replacement fields are `\x7bname\x7d`, `\x7bname.attr\x7d`, optionally with
a `:spec` part of shape `[width][.precision][g]`.  A missing name is
Python's `KeyError`, a malformed field or spec a `ValueError`/`TypeError`;
all of these escape `str.format` uncaught, so they are a single `.error`. -/

def defaultStr : Value → Str
  | .intV i => intStr i
  | .floatV n d =>
    if d ≠ 0 ∧ n % d = 0 then intStr (n / d) ++ ".0".data
    else gfmt 17 n d
  | .boolV b => if b then "True".data else "False".data
  | .strV s => s
  | .errV _ => []
  | .builtinV name => "<built-in function ".data ++ name ++ ">".data

/-- Parse a format spec into `(width?, precision?, isG)`. -/
def parseSpec (s : Str) : Option (Option Nat × Option Nat × Bool) :=
  let ws := s.takeWhile Char.isDigit
  let r1 := s.dropWhile Char.isDigit
  let width := if ws = [] then none else some (digitsToNat ws)
  match r1 with
  | [] => some (width, none, false)
  | ['g'] => some (width, none, true)
  | '.' :: r2 =>
    let ps := r2.takeWhile Char.isDigit
    let r3 := r2.dropWhile Char.isDigit
    if ps = [] then none
    else
      match r3 with
      | [] => some (width, some (digitsToNat ps), false)
      | ['g'] => some (width, some (digitsToNat ps), true)
      | _ => none
  | _ => none

def renderSpec (v : Value) (spec : Str) : Except Unit Str :=
  if spec = [] then .ok (defaultStr v)
  else
    match parseSpec spec with
    | none => .error ()
    | some (width, prec, isG) =>
      let w := width.getD 0
      if isG then
        match toFracOpt v with
        | some (n, d) => .ok (padLeft w (gfmt (prec.getD 6) n d))
        | none => .error ()
      else
        match prec, v with
        | some p, .floatV n d => .ok (padLeft w (gfmt p n d))
        | some _, _ => .error ()
        | none, .strV s => .ok (padRight w s)
        | none, _ => .ok (padLeft w (defaultStr v))

/-- Resolve a replacement field `name[.attr][:spec]` against `checkvars`. -/
def renderField (field : Str) (env : Env) : Except Unit Str :=
  let fname := field.takeWhile (fun c => c ≠ ':')
  let specPart := field.dropWhile (fun c => c ≠ ':')
  let spec := match specPart with
              | ':' :: s => s
              | _ => []
  let base := fname.takeWhile (fun c => c ≠ '.')
  let attrPart := fname.dropWhile (fun c => c ≠ '.')
  if base = [] then .error ()
  else
    match envLookup env base with
    | none => .error ()
    | some v =>
      match attrPart with
      | [] => renderSpec v spec
      | '.' :: a =>
        match v with
        | .errV i => if a = "info".data then renderSpec (.intV i) spec else .error ()
        | _ => .error ()
      | _ => .error ()

/-- `template.format(**checkvars)` (fuelled by template length). -/
def fmtAux : Nat → Str → Env → Except Unit Str
  | 0, _, _ => .error ()
  | _ + 1, [], _ => .ok []
  | f + 1, '{' :: '{' :: rest, env => (fmtAux f rest env).map (fun t => '{' :: t)
  | f + 1, '}' :: '}' :: rest, env => (fmtAux f rest env).map (fun t => '}' :: t)
  | f + 1, '{' :: rest, env =>
    let field := rest.takeWhile (fun c => c ≠ '}')
    match rest.dropWhile (fun c => c ≠ '}') with
    | '}' :: rest2 => do
      let s ← renderField field env
      let t ← fmtAux f rest2 env
      .ok (s ++ t)
    | _ => .error ()
  | _ + 1, '}' :: _, _ => .error ()
  | f + 1, c :: rest, env => (fmtAux f rest env).map (fun t => c :: t)

def formatTemplate (s : Str) (env : Env) : Except Unit Str :=
  fmtAux (s.length + 1) s env

/-! ## The exception taxonomy and call outcomes -/

/-- The three exception classes of the source (`SlycotError` base,
`SlycotParameterError`, `SlycotArithmeticError`), as the tags the
`slycot_error_map` name→class table distinguishes. -/
inductive ErrKind where
  | slycotError
  | slycotParameterError
  | slycotArithmeticError
  deriving DecidableEq, Repr

/-- What one call to `raise_if_slycot_error` does.  `raised` is a raised
member of the `SlycotError` family carrying its message and `info`;
`configError` is the plain `RuntimeError` raised for a bad infospec;
the remaining constructors are exceptions the source lets escape
accidentally (`ValueError` from `.index("-")`, an uncaught `eval`
exception, an uncaught `str.format` exception, `IndexError` from
`arg_list[-info-1]`). -/
inductive Outcome where
  | normal
  | raised (kind : ErrKind) (message : Str) (info : Int)
  | configError (message : Str)
  | valueError
  | evalCrash
  | formatCrash
  | indexError
  deriving DecidableEq, Repr

/-! ## The docstring scanner -/

/-- `re.match(r'(\s*)(Slycot(Parameter|Arithmetic)?Error) : e', l)`:
leading indent, then one of the three class names, then " : e", as a
prefix of the line.  Returns `(error_indent, class)`. -/
def headerMatch (l : Str) : Option (Nat × ErrKind) :=
  let w := countLeadingWs l
  let rest := dropLeadingWs l
  if startsWithCL "SlycotParameterError : e".data rest then some (w, .slycotParameterError)
  else if startsWithCL "SlycotArithmeticError : e".data rest then some (w, .slycotArithmeticError)
  else if startsWithCL "SlycotError : e".data rest then some (w, .slycotError)
  else none

/-- `re.match(r'(\s{error_indent+1,}):(.*):\s*(.*)', l)`: at least
`errInd + 1` whitespace characters, a colon, then the greedy `(.*)` takes
everything up to the last colon of the line.  Returns
`(infospec_indent, infospec, first message text)`. -/
def infospecMatch (l : Str) (errInd : Nat) : Option (Nat × Str × Str) :=
  let w := countLeadingWs l
  if errInd + 1 ≤ w then
    match l.drop w with
    | ':' :: rest =>
      match lastColon rest with
      | some (pred, tail) => some (w, pred, dropLeadingWs tail)
      | none => none
    | _ => none
  else none

/-- `re.match(r'(\s{infospec_indent+1,})(.*)', l)`: at least `m` leading
whitespace characters; returns `(body_indent, rest of line)`. -/
def bodyMatch (l : Str) (m : Nat) : Option (Nat × Str) :=
  let w := countLeadingWs l
  if m ≤ w then some (w, l.drop w) else none

/-- The message-body accumulation loop (source lines 176-179): keep
appending lines dedented by `body_indent` until a nonempty line whose
prefix is not all whitespace. -/
def accumBody : List Str → Nat → Str → Str
  | [], _, acc => acc
  | l :: rest, b, acc =>
    if !l.isEmpty && !pyIsSpace (l.take b) then acc
    else accumBody rest b (acc ++ l.drop b ++ ['\n'])

/-- The reserved infospec skipped when `i` is unbound (source line 154). -/
def reservedPred : Str := "e.info = -i".data

/-- Result of the `for l in docline` scan: early `return None`
(source line 136), a raised `RuntimeError`/uncaught eval exception, a
matched rule with its accumulated raw message, or section exhausted with
no match.  Each carries the `checkvars` dict as mutated so far. -/
inductive ScanRes where
  | earlyReturn (env : Env)
  | errRes (o : Outcome) (env : Env)
  | matched (kind : ErrKind) (message : Str) (env : Env)
  | noMatch (env : Env)
  deriving DecidableEq, Repr

/-- The `slycot_error` / `error_indent` state after seeing line `l`
(source lines 139-143): a header line replaces it, any other keeps it. -/
def newState (l : Str) (st : Option (Nat × ErrKind)) : Option (Nat × ErrKind) :=
  match headerMatch l with
  | some he => some he
  | none => st

/-- The main parsing/evaluation loop of `raise_if_slycot_error`
(source lines 126-180), one constructor case per line. -/
def scanLines (info : Int) (secInd : Nat) :
    List Str → Option (Nat × ErrKind) → Env → ScanRes
  | [], _, env => .noMatch env
  | l :: rest, st, env =>
    if isBlank l then scanLines info secInd rest st env
    else if !pyIsSpace (l.take secInd) then .earlyReturn env
    else
      match newState l st with
      | none => scanLines info secInd rest none env
      | some (errInd, kind) =>
        match infospecMatch l errInd with
        | none => scanLines info secInd rest (some (errInd, kind)) env
        | some (isInd, pred, inline) =>
          if pred = reservedPred ∧ envLookup env iKey = none then
            scanLines info secInd rest (some (errInd, kind)) env
          else
            let env1 := envSet env eKey (.errV info)
            match evalPredStr (rep1 pred) env1 with
            | .error .synErr =>
              .errRes (.configError ("Invalid infospec: ".data ++ pred)) env1
            | .error .nameErr =>
              .errRes (.configError ("Unknown variable in infospec: ".data ++ pred)) env1
            | .error .crash => .errRes .evalCrash env1
            | .ok v =>
              if truthy v then
                let msg0 := pyStrip inline ++ ['\n']
                match rest with
                | [] => .matched kind msg0 env1
                | m :: rest2 =>
                  match bodyMatch m (isInd + 1) with
                  | none => .matched kind msg0 env1
                  | some (bInd, tail) =>
                    .matched kind (accumBody rest2 bInd (msg0 ++ tail ++ ['\n'])) env1
              else scanLines info secInd rest (some (errInd, kind)) env1

/-- `while "Raises" not in next(docline)` (source line 121): the lines
after the first one containing "Raises"; `none` if exhausted. -/
def findRaises : List Str → Option (List Str)
  | [] => none
  | l :: rest => if containsCL "Raises".data l then some rest else findRaises rest

/-- The generic fallback (source lines 187-190): negative `info` with a
nonempty `arg_list` raises `SlycotParameterError` naming
`arg_list[-info-1]`. -/
def fallback (info : Int) (argList : List Str) : Outcome :=
  if info < 0 ∧ argList ≠ [] then
    match argList.get? (-info - 1).toNat with
    | some a => .raised .slycotParameterError
        ("The following argument had an illegal value: ".data ++ a) info
    | none => .indexError
  else .normal

/-- What the call does with the scan's result (source lines 136, 162-166,
183-185 and the fall-through to 187): an early `return None`; the raised
`RuntimeError` or uncaught eval exception; the fallback when nothing
matched; or `'\n' + message.format(**checkvars).strip()` raised with the
recorded exception class. -/
def postScan (info : Int) (argList : List Str) (r : ScanRes) : Outcome × Env :=
  match r with
  | .earlyReturn env1 => (.normal, env1)
  | .errRes o env1 => (o, env1)
  | .noMatch env1 => (fallback info argList, env1)
  | .matched kind msg env1 =>
    match formatTemplate msg env1 with
    | .error _ => (.formatCrash, env1)
    | .ok fm =>
      (.raised kind ('\n' :: pyStrip fm) info, env1)

/-- Everything `raise_if_slycot_error` does after `docstring.splitlines()`,
over the line list. -/
def raise_core (info : Int) (argList : List Str) (lines : List Str) (env : Env) :
    Outcome × Env :=
  match findRaises lines with
  | none => (fallback info argList, env)
  | some [] => (fallback info argList, env)
  | some (u :: rest) =>
    match firstIdx '-' u with
    | none => (.valueError, env)
    | some secInd => postScan info argList (scanLines info secInd rest none env)

/-- The embedding of `raise_if_slycot_error(info, arg_list, docstring,
checkvars)`.  The returned `Env` is the caller's `checkvars` dict after
the call (the source mutates it in place). -/
def raise_if_slycot_error (info : Int) (argList : List Str)
    (docstring : Option String) (checkvars : Env) : Outcome × Env :=
  match docstring with
  | none => (fallback info argList, checkvars)
  | some ds =>
    if ds.data = [] then (fallback info argList, checkvars)
    else raise_core info argList (splitlinesPy ds.data) checkvars

/-! ## Schematic documentation texts

`docLines` builds, as a line list, a well-formed docstring in the shape
of the source's own doctest: a "Raises" title indented four spaces, its
dash underline (so `section_indent = 4`), one `SlycotArithmeticError : e`
header (`error_indent = 4`), and one guard-clause line per `(predicate,
message)` pair, each with the message inline on the clause line at
indentation 8. -/

def guardLine (p m : Str) : Str :=
  "        :".data ++ p ++ ':' :: ' ' :: m

def docLines (specs : List (Str × Str)) : List Str :=
  "    Raises".data :: "    ------".data :: "    SlycotArithmeticError : e".data ::
    specs.map (fun pm => guardLine pm.1 pm.2)

/-- The `checkvars` dictionary after the call, as `postScan` reports it. -/
def resEnv : ScanRes → Env
  | .earlyReturn env1 => env1
  | .errRes _ env1 => env1
  | .matched _ _ env1 => env1
  | .noMatch env1 => env1

/-- The guard predicate evaluates without error to a falsy value. -/
def evalFalsy (env : Env) (info : Int) (p : Str) : Bool :=
  match evalPredStr (rep1 p) (envSet env eKey (.errV info)) with
  | .ok v => !truthy v
  | .error _ => false

/-- A guard clause the scan moves past without selecting: either the
reserved infospec with `i` unbound (skipped unevaluated), or a predicate
that evaluates to a falsy value. -/
def guardFalseP (env : Env) (info : Int) (p : Str) : Prop :=
  (p = reservedPred ∧ envLookup env iKey = none) ∨
  (¬(p = reservedPred ∧ envLookup env iKey = none) ∧ evalFalsy env info p = true)

instance (env : Env) (info : Int) (p : Str) : Decidable (guardFalseP env info p) :=
  inferInstanceAs (Decidable
    ((p = reservedPred ∧ envLookup env iKey = none) ∨
     (¬(p = reservedPred ∧ envLookup env iKey = none) ∧ evalFalsy env info p = true)))

/-! ## Concrete inputs from the source's doctest and the claims -/

/-- The docstring of the doctest's `fun` (source lines 86-96), exactly as
`fun.__doc__` delivers it. -/
def exampleDocstring : String :=
  "Example function\n\n    Raises\n    ------\n    SlycotArithmeticError : e\n        :e.info = 1: Info is 1\n        :e.info > 1 and e.info < n:\n            Info is \x7be.info\x7d, which is between 1 and \x7bn\x7d\n        :n <= e.info < m:\n            \x7be.info\x7d is between \x7bn\x7d and \x7bm:10.2g\x7d!\n    "

/-- `locals()` of the doctest's `fun`: `info`, and `n, m = 4, 1.2e2`. -/
def exampleEnv (i : Int) : Env :=
  [("info".data, .intV i), ("n".data, .intV 4), ("m".data, .floatV 120 1)]

def exampleArgs : List Str := ["a".data, "b".data, "c".data]

/-! ## Helper lemmas -/

theorem envSet_idem (env : Env) (k : Str) (v : Value) :
    envSet (envSet env k v) k v = envSet env k v := by
  induction env with
  | nil => simp [envSet]
  | cons kv rest ih =>
    obtain ⟨k1, v1⟩ := kv
    by_cases h : k1 = k
    · simp [envSet, h]
    · simp [envSet, h, ih]

theorem envLookup_envSet_ne (env : Env) (k k2 : Str) (v : Value) (h : k2 ≠ k) :
    envLookup (envSet env k2 v) k = envLookup env k := by
  induction env with
  | nil => simp [envSet, envLookup, h]
  | cons kv rest ih =>
    obtain ⟨k1, v1⟩ := kv
    by_cases h1 : k1 = k2
    · simp [envSet, envLookup, h1, h]
    · simp [envSet, envLookup, h1, ih]

theorem lastColon_none (s : Str) (h : ':' ∉ s) : lastColon s = none := by
  induction s with
  | nil => rfl
  | cons c cs ih =>
    simp only [List.mem_cons, not_or] at h
    rw [lastColon, ih h.2]
    have hc : ¬ c = ':' := fun hcc => h.1 hcc.symm
    simp [hc]

theorem lastColon_split (p s : Str) (hp : ':' ∉ p) (hs : ':' ∉ s) :
    lastColon (p ++ ':' :: s) = some (p, s) := by
  induction p with
  | nil =>
    simp only [List.nil_append]
    rw [lastColon, lastColon_none s hs]
    simp
  | cons c cs ih =>
    simp only [List.mem_cons, not_or] at hp
    simp only [List.cons_append]
    rw [lastColon, ih hp.2]

theorem infospecMatch_guardLine (p m : Str) (hp : ':' ∉ p) (hm : ':' ∉ m) :
    infospecMatch (guardLine p m) 4 = some (8, p, dropLeadingWs m) := by
  have hsm : ':' ∉ (' ' :: m) := by
    simp only [List.mem_cons, not_or]
    exact ⟨by decide, hm⟩
  show (match lastColon (p ++ ':' :: ' ' :: m) with
        | some (pred, tail) => some (8, pred, dropLeadingWs tail)
        | none => none) = some (8, p, dropLeadingWs m)
  rw [lastColon_split p (' ' :: m) hp hsm]
  rfl

theorem countLeadingWs_guardLine (p m : Str) :
    countLeadingWs (guardLine p m) = 8 := rfl

theorem isBlank_guardLine (p m : Str) : isBlank (guardLine p m) = false := rfl

theorem headerMatch_guardLine (p m : Str) : headerMatch (guardLine p m) = none := rfl

theorem newState_guardLine (p m : Str) (st : Option (Nat × ErrKind)) :
    newState (guardLine p m) st = st := rfl

theorem bodyMatch_guardLine (p m : Str) : bodyMatch (guardLine p m) 9 = none := by
  rw [bodyMatch, countLeadingWs_guardLine]
  simp

/-- One scan step over the header line of `docLines`. -/
theorem scan_header (info : Int) (rest : List Str) (env : Env) :
    scanLines info 4 ("    SlycotArithmeticError : e".data :: rest) none env
      = scanLines info 4 rest (some (4, .slycotArithmeticError)) env := rfl

/-- One scan step over a guard-clause line whose reserved predicate is
skipped because `i` is unbound. -/
theorem pyIsSpace_take_guardLine (p m : Str) :
    pyIsSpace ((guardLine p m).take 4) = true := rfl

theorem scan_guard_skip (info : Int) (K : ErrKind) (m : Str) (rest : List Str)
    (env : Env) (hm : ':' ∉ m) (hi : envLookup env iKey = none) :
    scanLines info 4 (guardLine reservedPred m :: rest) (some (4, K)) env
      = scanLines info 4 rest (some (4, K)) env := by
  have hp : ':' ∉ reservedPred := by decide
  simp only [scanLines, newState_guardLine, isBlank_guardLine, pyIsSpace_take_guardLine,
    Bool.not_true, Bool.false_eq_true, if_false,
    infospecMatch_guardLine reservedPred m hp hm]
  simp [hi]

/-- One scan step over a guard-clause line that is not skipped: the
predicate is evaluated with `e` freshly written into `checkvars`, and the
step's result follows the evaluation outcome exactly as in source lines
157-180.  Covers every non-skipped case at once. -/
theorem scan_guard_eval (info : Int) (K : ErrKind) (p m : Str) (rest : List Str)
    (env : Env) (hp : ':' ∉ p) (hm : ':' ∉ m)
    (hres : ¬(p = reservedPred ∧ envLookup env iKey = none)) :
    scanLines info 4 (guardLine p m :: rest) (some (4, K)) env
      = (match evalPredStr (rep1 p) (envSet env eKey (.errV info)) with
         | .error .synErr =>
           .errRes (.configError ("Invalid infospec: ".data ++ p))
             (envSet env eKey (.errV info))
         | .error .nameErr =>
           .errRes (.configError ("Unknown variable in infospec: ".data ++ p))
             (envSet env eKey (.errV info))
         | .error .crash => .errRes .evalCrash (envSet env eKey (.errV info))
         | .ok v =>
           if truthy v then
             match rest with
             | [] => .matched K (pyStrip (dropLeadingWs m) ++ ['\n'])
                 (envSet env eKey (.errV info))
             | q :: rest2 =>
               match bodyMatch q 9 with
               | none => .matched K (pyStrip (dropLeadingWs m) ++ ['\n'])
                   (envSet env eKey (.errV info))
               | some (bInd, tail) =>
                 .matched K
                   (accumBody rest2 bInd
                     ((pyStrip (dropLeadingWs m) ++ ['\n']) ++ tail ++ ['\n']))
                   (envSet env eKey (.errV info))
           else scanLines info 4 rest (some (4, K)) (envSet env eKey (.errV info))) := by
  simp only [scanLines, newState_guardLine, isBlank_guardLine, pyIsSpace_take_guardLine,
    Bool.not_true, Bool.false_eq_true, if_false,
    infospecMatch_guardLine p m hp hm]
  rw [if_neg hres]

/-- `raise_core` on a schematic docstring reduces to the guard scan. -/
theorem core_docLines (info : Int) (argList : List Str)
    (specs : List (Str × Str)) (env : Env) :
    raise_core info argList (docLines specs) env
      = postScan info argList
          (scanLines info 4 (specs.map (fun pm => guardLine pm.1 pm.2))
            (some (4, .slycotArithmeticError)) env) := rfl

/-- Same, with extra lines after the guard clauses. -/
theorem core_docLines_app (info : Int) (argList : List Str)
    (specs : List (Str × Str)) (tail : List Str) (env : Env) :
    raise_core info argList (docLines specs ++ tail) env
      = postScan info argList
          (scanLines info 4 (specs.map (fun pm => guardLine pm.1 pm.2) ++ tail)
            (some (4, .slycotArithmeticError)) env) := by
  have h : docLines specs ++ tail
      = "    Raises".data :: "    ------".data ::
        "    SlycotArithmeticError : e".data ::
        (specs.map (fun pm => guardLine pm.1 pm.2) ++ tail) := by
    simp [docLines]
  rw [h]
  rfl

/-- Scanning a block of guard clauses that all fail passes through to the
remaining lines, with `checkvars` either untouched or holding the one
synthetic `e` binding. -/
theorem scan_pass (info : Int) (env : Env) (specs : List (Str × Str)) :
    ∀ (tail : List Str) (e0 : Env),
    (e0 = env ∨ e0 = envSet env eKey (.errV info)) →
    (∀ pm ∈ specs, ':' ∉ pm.1 ∧ ':' ∉ pm.2 ∧ guardFalseP env info pm.1) →
    ∃ e1, (e1 = env ∨ e1 = envSet env eKey (.errV info)) ∧
      scanLines info 4 (specs.map (fun pm => guardLine pm.1 pm.2) ++ tail)
          (some (4, .slycotArithmeticError)) e0
        = scanLines info 4 tail (some (4, .slycotArithmeticError)) e1 := by
  induction specs with
  | nil =>
    intro tail e0 he _
    exact ⟨e0, he, by simp⟩
  | cons pm rest ih =>
    intro tail e0 he hall
    obtain ⟨hp, hm, hg⟩ := hall pm (by simp)
    have hrest : ∀ q ∈ rest, ':' ∉ q.1 ∧ ':' ∉ q.2 ∧ guardFalseP env info q.1 :=
      fun q hq => hall q (List.mem_cons_of_mem pm hq)
    have hiInv : envLookup e0 iKey = envLookup env iKey := by
      rcases he with h | h
      · rw [h]
      · rw [h, envLookup_envSet_ne env iKey eKey (.errV info) (by decide)]
    have hsetInv : envSet e0 eKey (.errV info) = envSet env eKey (.errV info) := by
      rcases he with h | h
      · rw [h]
      · rw [h, envSet_idem]
    simp only [List.map_cons, List.cons_append]
    rcases hg with ⟨hpr, hiu⟩ | ⟨hnot, hfalse⟩
    · rw [hpr, scan_guard_skip info .slycotArithmeticError pm.2 _ e0 hm (hiInv.trans hiu)]
      exact ih tail e0 he hrest
    · have hres : ¬(pm.1 = reservedPred ∧ envLookup e0 iKey = none) := by
        rintro ⟨h1, h2⟩
        exact hnot ⟨h1, hiInv ▸ h2⟩
      rw [scan_guard_eval info .slycotArithmeticError pm.1 pm.2 _ e0 hp hm hres, hsetInv]
      unfold evalFalsy at hfalse
      cases hev : evalPredStr (rep1 pm.1) (envSet env eKey (.errV info)) with
      | error err =>
        rw [hev] at hfalse
        exact absurd hfalse (by simp)
      | ok v =>
        rw [hev] at hfalse
        have ht : truthy v = false := by simpa using hfalse
        simp only [hev, ht, Bool.false_eq_true, if_false]
        exact ih tail (envSet env eKey (.errV info)) (Or.inr rfl) hrest

/-- Across a whole scan, `checkvars` is either untouched or has exactly
the synthetic `e` binding written into it. -/
theorem scan_env_shape (info : Int) (secInd : Nat) :
    ∀ (lines : List Str) (st : Option (Nat × ErrKind)) (e0 : Env),
    resEnv (scanLines info secInd lines st e0) = e0 ∨
    resEnv (scanLines info secInd lines st e0) = envSet e0 eKey (.errV info) := by
  intro lines
  induction lines with
  | nil => intro st e0; left; rfl
  | cons l rest ih =>
    intro st e0
    rw [scanLines]
    split
    · exact ih st e0
    split
    · left; rfl
    split
    · exact ih none e0
    split
    · exact ih _ e0
    rename_i errInd kind heq1 opt isInd pred inline heq2
    split
    · exact ih _ e0
    dsimp only
    cases hev : evalPredStr (rep1 pred) (envSet e0 eKey (.errV info)) with
    | error err =>
      cases err <;> simp only [hev] <;> right <;> rfl
    | ok v =>
      simp only [hev]
      by_cases ht : truthy v = true
      · simp only [ht, if_true]
        split
        · right; rfl
        split
        · right; rfl
        · right; rfl
      · rw [if_neg ht]
        rcases ih (some (errInd, kind)) (envSet e0 eKey (.errV info)) with h | h
        · right; exact h
        · right; rw [envSet_idem] at h; exact h

/-- A `RuntimeError` outcome of the scan always carries one of the two
infospec-failure messages, naming the offending predicate text. -/
theorem scan_config_shape (info : Int) (secInd : Nat) :
    ∀ (lines : List Str) (st : Option (Nat × ErrKind)) (e0 : Env) (msg : Str) (e1 : Env),
    scanLines info secInd lines st e0 = .errRes (.configError msg) e1 →
    ∃ p, msg = "Unknown variable in infospec: ".data ++ p ∨
         msg = "Invalid infospec: ".data ++ p := by
  intro lines
  induction lines with
  | nil => intro st e0 msg e1 h; exact absurd h (by simp [scanLines])
  | cons l rest ih =>
    intro st e0 msg e1 h
    rw [scanLines] at h
    split at h
    · exact ih st e0 msg e1 h
    split at h
    · exact absurd h (by simp)
    split at h
    · exact ih none e0 msg e1 h
    split at h
    · exact ih _ e0 msg e1 h
    rename_i errInd kind heq1 opt isInd pred inline heq2
    split at h
    · exact ih _ e0 msg e1 h
    dsimp only at h
    cases hev : evalPredStr (rep1 pred) (envSet e0 eKey (.errV info)) with
    | error err =>
      cases err <;> rw [hev] at h <;> simp only [] at h
      · injection h with h1 h2
        injection h1 with h3
        exact ⟨pred, Or.inr h3.symm⟩
      · injection h with h1 h2
        injection h1 with h3
        exact ⟨pred, Or.inl h3.symm⟩
      · exact absurd h (by simp)
    | ok v =>
      rw [hev] at h
      simp only [] at h
      by_cases ht : truthy v = true
      · rw [if_pos ht] at h
        split at h
        · exact absurd h (by simp)
        split at h
        · exact absurd h (by simp)
        · exact absurd h (by simp)
      · rw [if_neg ht] at h
        exact ih (some (errInd, kind)) (envSet e0 eKey (.errV info)) msg e1 h

theorem postScan_env (info : Int) (argList : List Str) (r : ScanRes) :
    (postScan info argList r).2 = resEnv r := by
  cases r with
  | matched k m e =>
    rw [postScan, resEnv]
    split <;> rfl
  | earlyReturn e => rfl
  | errRes o e => rfl
  | noMatch e => rfl

theorem fallback_not_config (info : Int) (argList : List Str) (msg : Str) :
    fallback info argList ≠ .configError msg := by
  rw [fallback]
  split
  · split <;> simp
  · simp

theorem postScan_config (info : Int) (argList : List Str) (r : ScanRes) (msg : Str)
    (h : (postScan info argList r).1 = .configError msg) :
    ∃ e1, r = .errRes (.configError msg) e1 := by
  cases r with
  | earlyReturn e => exact absurd h (by simp [postScan])
  | errRes o e => exact ⟨e, by rw [show o = .configError msg from h]⟩
  | noMatch e => exact absurd h (fallback_not_config info argList msg)
  | matched k m e =>
    rw [postScan] at h
    split at h <;> exact absurd h (by simp)

theorem findRaises_none (lines : List Str)
    (h : lines.all (fun l => !containsCL "Raises".data l) = true) :
    findRaises lines = none := by
  induction lines with
  | nil => rfl
  | cons l rest ih =>
    simp only [List.all_cons, Bool.and_eq_true] at h
    rw [findRaises]
    rw [show containsCL "Raises".data l = false by simpa using h.1]
    exact ih h.2
    
theorem findRaises_append (pre rest : List Str)
    (h : pre.all (fun l => !containsCL "Raises".data l) = true) :
    findRaises (pre ++ rest) = findRaises rest := by
  induction pre with
  | nil => rfl
  | cons l t ih =>
    simp only [List.all_cons, Bool.and_eq_true] at h
    rw [List.cons_append, findRaises]
    rw [show containsCL "Raises".data l = false by simpa using h.1]
    exact ih h.2

theorem envLookup_envSet_self (env : Env) (k : Str) (v : Value) :
    envLookup (envSet env k v) k = some v := by
  induction env with
  | nil => simp [envSet, envLookup]
  | cons kv rest ih =>
    obtain ⟨k1, v1⟩ := kv
    by_cases h : k1 = k
    · simp [envSet, envLookup, h]
    · simp [envSet, envLookup, h, ih]

/-! ## Claim theorems -/

/-- Claim C1 (code behaviour at the failing input): a docstring whose
Raises section is closed by an out-dented line before any guard matched,
with a negative status code and a nonempty argument list, makes the call
return normally — line 136's `return None` bypasses the fallback, so no
`SlycotParameterError` is raised, contradicting the claim and the
function's own docstring contract. -/
theorem outdent_skips_fallback_behavior :
    raise_if_slycot_error (-1) ["a".data]
      (some "    Raises\n    ------\nNotes") [] = (.normal, []) := by decide

/-- Claim C2 counterexample: with `info = -1` and a three-element
argument list and no docstring, the code names `arg_list[0]` ("a"), not
the claimed `arg_list[len + info]` = `arg_list[2]` ("c"). -/
theorem fallback_position_cex :
    (raise_if_slycot_error (-1) exampleArgs none []).1
        = .raised .slycotParameterError
            "The following argument had an illegal value: a".data (-1)
      ∧ ("The following argument had an illegal value: a".data
          ≠ "The following argument had an illegal value: c".data) := by decide

/-- Claim C2 amended: a negative status code with no documentation and a
nonempty argument list raises `SlycotParameterError` naming the argument
at 0-based position `-info - 1` from the start of the list (the
`(-info)`-th argument counted from the start). -/
theorem fallback_names_argument (info : Int) (argList : List Str) (env : Env)
    (h1 : info < 0) (h2 : argList ≠ [])
    (h3 : (-info - 1).toNat < argList.length) :
    raise_if_slycot_error info argList none env
      = (.raised .slycotParameterError
          ("The following argument had an illegal value: ".data
            ++ argList.get ⟨(-info - 1).toNat, h3⟩) info, env) := by
  show (fallback info argList, env) = _
  rw [fallback, if_pos (And.intro h1 h2), List.get?_eq_get h3]

theorem fallback_names_argument_witness :
    raise_if_slycot_error (-2) exampleArgs none []
      = (.raised .slycotParameterError
          "The following argument had an illegal value: b".data (-2), []) :=
  fallback_names_argument (-2) exampleArgs [] (by decide) (by decide) (by decide)

/-- Claim C3 counterexample: after a call that evaluated one (falsy)
guard, the caller's `checkvars` dict is no longer the original empty
dict — the synthetic `e` binding was written into it in place. -/
theorem checkvars_gains_e_binding_cex :
    (raise_if_slycot_error 0 []
        (some "    Raises\n    ------\n    SlycotError : e\n        :e.info == 1: x")
        []).2 ≠ ([] : Env) := by decide

/-- Claim C3 amended: the call mutates the caller's `checkvars` in place:
afterwards the dict is either untouched (no guard was evaluated) or is
exactly the original with the synthetic binding `e = SlycotError("", info)`
assigned into it, where it persists after the call returns or raises. -/
theorem checkvars_mutation_shape (info : Int) (argList : List Str)
    (docstring : Option String) (env : Env) :
    (raise_if_slycot_error info argList docstring env).2 = env ∨
    (raise_if_slycot_error info argList docstring env).2
      = envSet env eKey (.errV info) := by
  match docstring with
  | none => left; rfl
  | some ds =>
    rw [raise_if_slycot_error]
    by_cases hds : ds.data = []
    · rw [if_pos hds]
      left
      rfl
    · rw [if_neg hds, raise_core]
      cases hfr : findRaises (splitlinesPy ds.data) with
      | none => left; rfl
      | some rest0 =>
        cases rest0 with
        | nil => left; rfl
        | cons u rest =>
          cases hix : firstIdx '-' u with
          | none =>
            left
            simp [hix]
          | some secInd =>
            simp only [hix, postScan_env]
            exact scan_env_shape info secInd rest none env

/-- Claim C8 counterexample: for status 5 in the doctest scenario the
raised message is "5 is between 4 and    1.2e+02!" (with its leading
newline), not the claimed "4 is between 4 and    1.2e+02!" — the template
field `e.info` is filled with the status code 5. -/
theorem doctest_status5_message_cex :
    (raise_if_slycot_error 5 exampleArgs (some exampleDocstring) (exampleEnv 5)).1
        = .raised .slycotArithmeticError
            "\n5 is between 4 and    1.2e+02!".data 5
      ∧ ("\n5 is between 4 and    1.2e+02!".data
          ≠ "\n4 is between 4 and    1.2e+02!".data) := by decide

/-- Claim C8 amended: in the doctest scenario, status 1 raises
`SlycotArithmeticError` with message "Info is 1", status 2 with
"Info is 2, which is between 1 and 4", and status 5 with
"5 is between 4 and    1.2e+02!": the matched template is filled from the
binding set honouring format specifiers such as the width-10 precision-2
general-number one, prefixed with one newline and stripped. -/
theorem doctest_scenario_messages :
    (raise_if_slycot_error 1 exampleArgs (some exampleDocstring) (exampleEnv 1)).1
        = .raised .slycotArithmeticError "\nInfo is 1".data 1
      ∧ (raise_if_slycot_error 2 exampleArgs (some exampleDocstring) (exampleEnv 2)).1
        = .raised .slycotArithmeticError
            "\nInfo is 2, which is between 1 and 4".data 2
      ∧ (raise_if_slycot_error 5 exampleArgs (some exampleDocstring) (exampleEnv 5)).1
        = .raised .slycotArithmeticError
            "\n5 is between 4 and    1.2e+02!".data 5 := by decide

/-- Claim C4 counterexample: documentation whose line after "Raises" has
no dash makes `next(docline).index("-")` raise an uncaught `ValueError`
(line 124): the call neither degrades to the fallback (which would raise
`SlycotParameterError` naming "a" here) nor returns normally. -/
theorem malformed_underline_cex :
    (raise_if_slycot_error (-1) ["a".data] (some "Raises\nxxx") []).1 = .valueError
      ∧ Outcome.valueError ≠ .normal
      ∧ Outcome.valueError
          ≠ .raised .slycotParameterError
              "The following argument had an illegal value: a".data (-1) := by decide

/-- Claim C4 amended: structurally unexpected documentation degrades
silently to the generic fallback path in three forms — no "Raises" title
anywhere, the title as the very last line (text exhausted before the
underline, the StopIteration of source line 124), and a section whose
guard clauses are exhausted without a match (the StopIteration swallowed
at lines 181-182) — and a `RuntimeError` configuration error can only
arise from a predicate-evaluation failure (its message names the
offending infospec).  But a malformed dash underline is not defended
against: it raises an uncaught `ValueError` (see the counterexample). -/
theorem config_errors_only_from_infospec (info : Int) (argList : List Str)
    (env : Env) (ds : String) (msg : Str) (pre : List Str)
    (specs : List (Str × Str)) :
    ((splitlinesPy ds.data).all (fun l => !containsCL "Raises".data l) = true →
      raise_if_slycot_error info argList (some ds) env = (fallback info argList, env))
    ∧ (pre.all (fun l => !containsCL "Raises".data l) = true →
      raise_core info argList (pre ++ ["    Raises".data]) env
        = (fallback info argList, env))
    ∧ ((∀ pm ∈ specs, ':' ∉ pm.1 ∧ ':' ∉ pm.2 ∧ guardFalseP env info pm.1) →
      (raise_core info argList (docLines specs) env).1 = fallback info argList)
    ∧ ((raise_if_slycot_error info argList (some ds) env).1 = .configError msg →
      ∃ p, msg = "Unknown variable in infospec: ".data ++ p ∨
           msg = "Invalid infospec: ".data ++ p) := by
  refine ⟨?_, ?_, ?_, ?_⟩
  · intro hall
    rw [raise_if_slycot_error]
    by_cases hds : ds.data = []
    · rw [if_pos hds]
    · rw [if_neg hds, raise_core, findRaises_none (splitlinesPy ds.data) hall]
  · intro hpre
    rw [raise_core, findRaises_append pre ["    Raises".data] hpre]
    rfl
  · intro hall
    rw [core_docLines]
    obtain ⟨e1, _, heq⟩ := scan_pass info env specs [] env (Or.inl rfl) hall
    rw [List.append_nil] at heq
    rw [heq]
    rfl
  · intro h
    rw [raise_if_slycot_error] at h
    by_cases hds : ds.data = []
    · rw [if_pos hds] at h
      exact absurd h (fallback_not_config info argList msg)
    · rw [if_neg hds, raise_core] at h
      cases hfr : findRaises (splitlinesPy ds.data) with
      | none =>
        rw [hfr] at h
        exact absurd h (fallback_not_config info argList msg)
      | some rest0 =>
        rw [hfr] at h
        cases rest0 with
        | nil => exact absurd h (fallback_not_config info argList msg)
        | cons u rest =>
          dsimp only at h
          cases hix : firstIdx '-' u with
          | none =>
            simp only [hix] at h
            exact absurd h (by simp)
          | some secInd =>
            simp only [hix] at h
            obtain ⟨e1, he1⟩ := postScan_config info argList _ msg h
            exact scan_config_shape info secInd rest none env msg e1 he1

theorem config_errors_only_from_infospec_witness :
    raise_if_slycot_error (-7) ["x".data] (some "No such section here") []
        = (fallback (-7) ["x".data], [])
      ∧ raise_core (-7) ["x".data] (["Example text".data] ++ ["    Raises".data]) []
        = (fallback (-7) ["x".data], [])
      ∧ (raise_core (-7) ["x".data]
          (docLines [("e.info == 1".data, "one".data)]) []).1
        = fallback (-7) ["x".data]
      ∧ (∃ p, "Unknown variable in infospec: q > 0".data
            = "Unknown variable in infospec: ".data ++ p ∨
          "Unknown variable in infospec: q > 0".data
            = "Invalid infospec: ".data ++ p) :=
  ⟨(config_errors_only_from_infospec (-7) ["x".data] [] "No such section here"
      [] [] []).1 (by decide),
   (config_errors_only_from_infospec (-7) ["x".data] [] "irrelevant" []
      ["Example text".data] []).2.1 (by decide),
   (config_errors_only_from_infospec (-7) ["x".data] [] "irrelevant" []
      [] [("e.info == 1".data, "one".data)]).2.2.1 (by decide),
   (config_errors_only_from_infospec 3 [] []
      "    Raises\n    ------\n    SlycotError : e\n        :q > 0: msg"
      "Unknown variable in infospec: q > 0".data [] []).2.2.2 (by decide)⟩

/-- Claim C6: in a documentation text with several guard clauses, once
the first clause's predicate evaluates truthy the call's entire result is
that of the one-clause document: every later guard clause — with
arbitrary predicate and message text — is never evaluated and cannot
influence the outcome or the final `checkvars`. -/
theorem first_true_guard_wins (env : Env) (info : Int) (argList : List Str)
    (p1 m1 : Str) (later : List (Str × Str)) (v : Value)
    (hp : ':' ∉ p1) (hm : ':' ∉ m1)
    (hres : ¬(p1 = reservedPred ∧ envLookup env iKey = none))
    (hev : evalPredStr (rep1 p1) (envSet env eKey (.errV info)) = .ok v)
    (ht : truthy v = true) :
    raise_core info argList (docLines ((p1, m1) :: later)) env
      = raise_core info argList (docLines [(p1, m1)]) env := by
  rw [core_docLines, core_docLines]
  dsimp only [List.map]
  rw [scan_guard_eval info .slycotArithmeticError p1 m1 _ env hp hm hres,
      scan_guard_eval info .slycotArithmeticError p1 m1 [] env hp hm hres]
  simp only [hev, ht, if_true]
  cases later with
  | nil => rfl
  | cons pm t =>
    dsimp only [List.map]
    rw [bodyMatch_guardLine]

theorem first_true_guard_wins_witness :
    raise_core 1 [] (docLines [("e.info == 1".data, "one".data),
        ("e.info == 1".data, "two".data), ("junk(".data, "x".data)])
        [("n".data, .intV 4)]
      = raise_core 1 [] (docLines [("e.info == 1".data, "one".data)])
          [("n".data, .intV 4)] :=
  first_true_guard_wins [("n".data, .intV 4)] 1 [] "e.info == 1".data "one".data
    [("e.info == 1".data, "two".data), ("junk(".data, "x".data)] (.boolV true)
    (by decide) (by decide) (by decide) (by rfl) (by decide)

/-- Evaluating the rewritten reserved predicate `e.info == -i` in a scope
holding `e` and `i` either yields a value or raises an uncaught
`TypeError` (negating a non-numeric `i`): never a `NameError` or
`SyntaxError`. -/
theorem eval_reserved_shape (env2 : Env) (info0 : Int) (w : Value)
    (he : envLookup env2 "e".data = some (.errV info0))
    (hi : envLookup env2 "i".data = some w) :
    (∃ v, evalPredStr "e.info == -i".data env2 = .ok v) ∨
    evalPredStr "e.info == -i".data env2 = .error .crash := by
  have hkey : evalPredStr "e.info == -i".data env2
      = (match evalExpr env2 (.cmp .eq (.attr "e".data "info".data)
            (.neg (.evar "i".data))) with
         | .error .nameErr => .error .nameErr
         | .error .crash => .error .crash
         | .ok v => (.ok v : Except PredErr Value)) := rfl
  have hEE : (∃ u, evalExpr env2 (.cmp .eq (.attr "e".data "info".data)
        (.neg (.evar "i".data))) = .ok u)
      ∨ evalExpr env2 (.cmp .eq (.attr "e".data "info".data)
        (.neg (.evar "i".data))) = .error .crash := by
    cases w with
    | intV i =>
      simp only [evalExpr, he, hi]
      simp [Bind.bind, Except.bind, cmpVals, toFracOpt]
    | floatV n d =>
      simp only [evalExpr, he, hi]
      simp [Bind.bind, Except.bind, cmpVals, toFracOpt]
    | boolV b =>
      simp only [evalExpr, he, hi]
      simp [Bind.bind, Except.bind, cmpVals, toFracOpt]
    | strV s =>
      simp only [evalExpr, he, hi]
      simp [Bind.bind, Except.bind, cmpVals, toFracOpt]
    | errV j =>
      simp only [evalExpr, he, hi]
      simp [Bind.bind, Except.bind, cmpVals, toFracOpt]
    | builtinV b =>
      simp only [evalExpr, he, hi]
      simp [Bind.bind, Except.bind, cmpVals, toFracOpt]
  rcases hEE with ⟨u, hu⟩ | hcr
  · exact .inl ⟨u, by rw [hkey, hu]⟩
  · exact .inr (by rw [hkey, hcr])

/-- Claim C7: a guard clause whose predicate text is exactly
`e.info = -i` is skipped entirely when no binding named `i` exists — the
call behaves as if the clause were absent; when `i` is bound, the clause
is evaluated like any other guard: the call behaves exactly as for an
ordinary clause with the (rewritten) predicate `e.info == -i`. -/
theorem reserved_infospec_requires_i (env : Env) (info : Int) (argList : List Str)
    (m1 : Str) (later : List (Str × Str)) (w : Value) (hm : ':' ∉ m1) :
    (envLookup env iKey = none →
      raise_core info argList (docLines ((reservedPred, m1) :: later)) env
        = raise_core info argList (docLines later) env)
    ∧ (envLookup env iKey = some w →
      raise_core info argList (docLines ((reservedPred, m1) :: later)) env
        = raise_core info argList
            (docLines (("e.info == -i".data, m1) :: later)) env) := by
  constructor
  · intro hi
    rw [core_docLines, core_docLines]
    dsimp only [List.map]
    rw [scan_guard_skip info .slycotArithmeticError m1 _ env hm hi]
  · intro hi
    rw [core_docLines, core_docLines]
    dsimp only [List.map]
    have hres1 : ¬(reservedPred = reservedPred ∧ envLookup env iKey = none) := by
      rintro ⟨_, h2⟩
      rw [hi] at h2
      exact Option.noConfusion h2
    have hres2 : ¬("e.info == -i".data = reservedPred
        ∧ envLookup env iKey = none) := by
      rintro ⟨h1, _⟩
      exact absurd h1 (by decide)
    rw [scan_guard_eval info .slycotArithmeticError reservedPred m1 _ env
          (by decide) hm hres1,
        scan_guard_eval info .slycotArithmeticError "e.info == -i".data m1 _ env
          (by decide) hm hres2]
    rw [show rep1 reservedPred = "e.info == -i".data from by decide,
        show rep1 "e.info == -i".data = "e.info == -i".data from by decide]
    have hsh := eval_reserved_shape (envSet env eKey (.errV info)) info w
      (envLookup_envSet_self env eKey (.errV info))
      (by
        show envLookup (envSet env eKey (.errV info)) iKey = some w
        rw [envLookup_envSet_ne env iKey eKey (.errV info) (by decide)]
        exact hi)
    rcases hsh with ⟨v, hv⟩ | hcrash
    · simp only [hv]
    · simp only [hcrash]

theorem reserved_infospec_requires_i_witness :
    (raise_core 2 [] (docLines [(reservedPred, "skipped".data),
        ("e.info == 2".data, "two".data)]) [("n".data, .intV 4)]
      = raise_core 2 [] (docLines [("e.info == 2".data, "two".data)])
          [("n".data, .intV 4)])
    ∧ (raise_core 2 [] (docLines [(reservedPred, "hit".data)])
          [("i".data, .intV (-2))]
      = raise_core 2 [] (docLines [("e.info == -i".data, "hit".data)])
          [("i".data, .intV (-2))]) :=
  ⟨(reserved_infospec_requires_i [("n".data, .intV 4)] 2 [] "skipped".data
      [("e.info == 2".data, "two".data)] (.intV 0) (by decide)).1 (by decide),
   (reserved_infospec_requires_i [("i".data, .intV (-2))] 2 [] "hit".data
      [] (.intV (-2)) (by decide)).2 (by decide)⟩

/-- Claim C9: with status code 0, a call with no documentation, and a
call on a documentation text all of whose guard clauses fail (falsy
predicate, or the reserved infospec with `i` unbound), raises nothing
and returns normally. -/
theorem status_zero_raises_nothing (argList : List Str) (env : Env)
    (specs : List (Str × Str))
    (hall : ∀ pm ∈ specs, ':' ∉ pm.1 ∧ ':' ∉ pm.2 ∧ guardFalseP env 0 pm.1) :
    raise_if_slycot_error 0 argList none env = (.normal, env)
    ∧ (raise_core 0 argList (docLines specs) env).1 = .normal := by
  constructor
  · rfl
  · rw [core_docLines]
    obtain ⟨e1, _, heq⟩ := scan_pass 0 env specs [] env (Or.inl rfl) hall
    rw [List.append_nil] at heq
    rw [heq]
    rfl

theorem status_zero_raises_nothing_witness :
    raise_if_slycot_error 0 ["a".data] none [] = (.normal, [])
    ∧ (raise_core 0 ["a".data]
        (docLines [("e.info == 1".data, "one".data)]) []).1 = .normal :=
  status_zero_raises_nothing ["a".data] []
    [("e.info == 1".data, "one".data)] (by decide)

/-- Claim C10: for a strictly positive status code, a call with no
documentation returns normally, and so does a call whose documentation's
guard clauses all fail — whether the scan ends by exhausting the text or
by hitting an out-dented terminator line: the generic fallback applies
only to negative status codes, so the unmatched positive failure code is
silently accepted. -/
theorem positive_status_unmatched_silent (info : Int) (argList : List Str)
    (env : Env) (specs : List (Str × Str)) (hpos : 0 < info)
    (hall : ∀ pm ∈ specs, ':' ∉ pm.1 ∧ ':' ∉ pm.2 ∧ guardFalseP env info pm.1) :
    raise_if_slycot_error info argList none env = (.normal, env)
    ∧ (raise_core info argList (docLines specs) env).1 = .normal
    ∧ (raise_core info argList (docLines specs ++ ["Notes".data]) env).1
        = .normal := by
  have hfb : fallback info argList = .normal := by
    rw [fallback, if_neg]
    rintro ⟨h1, _⟩
    omega
  refine ⟨?_, ?_, ?_⟩
  · show (fallback info argList, env) = (.normal, env)
    rw [hfb]
  · rw [core_docLines]
    obtain ⟨e1, _, heq⟩ := scan_pass info env specs [] env (Or.inl rfl) hall
    rw [List.append_nil] at heq
    rw [heq]
    exact hfb
  · rw [core_docLines_app]
    obtain ⟨e1, _, heq⟩ := scan_pass info env specs ["Notes".data] env
      (Or.inl rfl) hall
    rw [heq]
    rfl

theorem positive_status_unmatched_silent_witness :
    raise_if_slycot_error 7 ["a".data] none [] = (.normal, [])
    ∧ (raise_core 7 ["a".data]
        (docLines [("e.info == 1".data, "one".data)]) []).1 = .normal
    ∧ (raise_core 7 ["a".data]
        (docLines [("e.info == 1".data, "one".data)] ++ ["Notes".data]) []).1
        = .normal :=
  positive_status_unmatched_silent 7 ["a".data] []
    [("e.info == 1".data, "one".data)] (by decide) (by decide)

end Slycot
